import Mathlib

/-!
# fClient request dispatcher — verification development

Shallow embedding of the fAPI client (`src/client.ts`, `src/errors.ts`,
`src/types.ts`): the client constructor (auth normalisation, timeout
settings) and the shared `Client.request` dispatch routine (content-type
defaulting, lifecycle events, rate-limit state tracking, error
classification, response decoding).

Conventions of the embedding:
* HTTP headers are association lists of strings; lookup returns the first
  binding (`res.headers[key]`, `undefined` mapped to `none`).
* JavaScript truthiness on optional strings/numbers is modelled explicitly:
  a string is truthy iff non-empty, a number is truthy iff non-zero, and
  `undefined` is falsy.
* `undefined` values that can escape to the caller are a dedicated
  constructor of the return-value type.
* The transport (`detritus-rest`) is a collaborator: a dispatch is modelled
  as a function of the request options and the response the transport
  produced. `res.json()` is modelled as an optional field of the response
  (`none` when the body is not valid JSON and the parse throws).
* Node `EventEmitter.emit` runs listeners synchronously in order; an
  exception thrown by a listener propagates to the `emit` caller. A
  listener is a function returning `none` on normal completion and
  `some msg` when it throws.
-/

namespace FClient

/-- `HttpMethods` enum from `src/types.ts`. -/
inductive HttpMethods where
  | GET : HttpMethods
  | POST : HttpMethods
  deriving DecidableEq, Repr

/-- `ReturnMethods` enum from `src/types.ts` (`'json' | 'body'`). -/
inductive ReturnMethods where
  | JSON : ReturnMethods
  | BODY : ReturnMethods
  deriving DecidableEq, Repr

/-- `ReturnHeaders.RATELIMIT_RESET` from `src/types.ts`. -/
def RATELIMIT_RESET : String := "x-rate-limit-reset"

/-- `ReturnHeaders.RATELIMIT_LIMIT` from `src/types.ts`. -/
def RATELIMIT_LIMIT : String := "x-rate-limit-limit"

/-- `ReturnHeaders.RATELIMIT_REMAINING` from `src/types.ts`. -/
def RATELIMIT_REMAINING : String := "x-rate-limit-remaining"

/-- `ReturnHeaders.CONTENT_TYPE` from `src/types.ts`. -/
def CONTENT_TYPE : String := "content-type"

/-- HTTP headers as an association list (header name, header value). -/
abbrev Headers := List (String × String)

/-- `headers[key]`: first binding for `key`, `none` when absent
(JavaScript property lookup yielding `undefined`). -/
def headerGet (hs : Headers) (k : String) : Option String :=
  (hs.find? (fun p => p.1 == k)).map (fun p => p.2)

/-- `headers[key] = value`: JavaScript property assignment on the headers
object — overwrite an existing binding, otherwise add one. -/
def setHeader (hs : Headers) (k v : String) : Headers :=
  if hs.any (fun p => p.1 == k) then
    hs.map (fun p => if p.1 == k then (k, v) else p)
  else
    hs ++ [(k, v)]

/-- Stand-in for a parsed JSON document (the successful result of
`res.json()`); its structure is irrelevant to the dispatcher. -/
inductive JsonValue where
  | mk : String → JsonValue
  deriving DecidableEq, Repr

/-- A completed transport response (`detritus-rest` `Response`): status
code, headers, body text, and the outcome of `res.json()` (`none` when the
body is not valid JSON, in which case `res.json()` throws). -/
structure FapiResponse where
  statusCode : Nat
  headers : Headers := []
  body : String := ""
  json : Option JsonValue := none
  deriving DecidableEq, Repr

/-- `RequestTypes.Request` from `src/types.ts`: the per-call request
descriptor handed to `Client.request`. The body is kept abstract as an
optional payload string; only its presence matters to the dispatcher. -/
structure RequestOptions where
  method : HttpMethods
  headers : Option Headers := none
  body : Option String := none
  contentType : Option String := none
  returnType : Option ReturnMethods := none
  returnHeaders : Bool := false
  deriving DecidableEq, Repr

/-- `RatelimitState` from `src/types.ts`. At runtime the client stores the
raw header values (strings) into these fields, so they are modelled as
optional strings. -/
structure RatelimitState where
  reset : Option String := none
  limit : Option String := none
  remaining : Option String := none
  deriving DecidableEq, Repr

/-- `public ratelimitState: RatelimitState = {}` (client.ts:34). -/
def initialRatelimitState : RatelimitState := {}

/-! ## JavaScript `parseInt` (used on the reset header, client.ts:106) -/

/-- Whitespace skipped by `parseInt` before parsing. -/
def isJsWhitespace (c : Char) : Bool :=
  c == ' ' || c == '\t' || c == '\n' || c == '\r' || c == '\x0b' || c == '\x0c'

/-- Hexadecimal digit recognizer. -/
def isHexDigitChar (c : Char) : Bool :=
  c.isDigit || ('a' ≤ c && c ≤ 'f') || ('A' ≤ c && c ≤ 'F')

/-- Numeric value of a list of decimal digits. -/
def decDigits (ds : List Char) : Nat :=
  ds.foldl (fun a c => a * 10 + (c.toNat - 48)) 0

/-- Numeric value of one hexadecimal digit. -/
def hexDigitVal (c : Char) : Nat :=
  if c.isDigit then c.toNat - 48
  else if 'a' ≤ c && c ≤ 'f' then c.toNat - 87
  else c.toNat - 55

/-- Numeric value of a list of hexadecimal digits. -/
def hexDigits (ds : List Char) : Nat :=
  ds.foldl (fun a c => a * 16 + hexDigitVal c) 0

/-- `parseInt` after sign handling: a `0x`/`0X` prefix switches to radix 16,
otherwise the longest leading run of decimal digits is taken; no digits at
all yields `NaN` (`none`). -/
def jsParseIntCore (sign : Int) (cs : List Char) : Option Int :=
  let isHex : Bool := match cs with
    | c0 :: c1 :: _ => c0 == '0' && (c1 == 'x' || c1 == 'X')
    | _ => false
  if isHex then
    let ds := (cs.drop 2).takeWhile isHexDigitChar
    if ds.isEmpty then none else some (sign * (hexDigits ds : Int))
  else
    let ds := cs.takeWhile Char.isDigit
    if ds.isEmpty then none else some (sign * (decDigits ds : Int))

/-- JavaScript `parseInt(s)` on a string: skip leading whitespace, read an
optional sign, then parse digits; `none` models `NaN`. -/
def jsParseIntStr (s : String) : Option Int :=
  match s.toList.dropWhile isJsWhitespace with
  | [] => none
  | c :: rest =>
      if c == '-' then jsParseIntCore (-1) rest
      else if c == '+' then jsParseIntCore 1 rest
      else jsParseIntCore 1 (c :: rest)

/-- `parseInt(res.headers[key])` where the lookup may yield `undefined`:
`parseInt(undefined)` coerces to the string `"undefined"` and gives `NaN`. -/
def jsParseIntOpt (v : Option String) : Option Int :=
  match v with
  | none => none
  | some s => jsParseIntStr s

/-! ## Client constructor (client.ts:38-62) -/

/-- JavaScript `s.startsWith(p)`: the first `p.length` characters of `s`
are exactly `p`. -/
def jsStartsWith (s p : String) : Bool :=
  s.toList.take p.toList.length == p.toList

/-- Auth normalisation from the constructor (client.ts:41-47):
`options.auth` truthy (present and non-empty) and not starting with
`"Bearer"` gets the scheme prepended; truthy and already starting with
`"Bearer"` is kept verbatim; otherwise the stored auth is the empty
string. The stored value is installed verbatim as the `Authorization`
default header of the rest client (client.ts:54-58). -/
def mkAuth (auth : Option String) : String :=
  match auth with
  | some a =>
      if a ≠ "" ∧ ¬ jsStartsWith a "Bearer" then "Bearer " ++ a
      else if a ≠ "" ∧ jsStartsWith a "Bearer" then a
      else ""
  | none => ""

/-- Timeout handling from the constructor (client.ts:51-52).
`const settings: RequestSettings = defaultSettings` makes `settings` an
alias of the module-level `defaultSettings` object, so
`settings.timeout = options.timeout` mutates the shared default. The state
threaded here is `defaultSettings.timeout` (initially 15000); the result is
(this client's `settings.timeout`, `defaultSettings.timeout` after the
construction) — the same number, because the two names denote one object.
`if (options.timeout)` is a truthiness test, so a timeout of 0 is ignored. -/
def constructClientTimeout (defaultTimeout : Nat) (optTimeout : Option Nat) :
    Nat × Nat :=
  match optTimeout with
  | some t => if t ≠ 0 then (t, t) else (defaultTimeout, defaultTimeout)
  | none => (defaultTimeout, defaultTimeout)

/-- A sequence of client constructions in one process: threads
`defaultSettings.timeout` (initially 15000, client.ts:21-23) through the
constructions and collects each client's effective timeout. -/
def constructClients (opts : List (Option Nat)) : List Nat × Nat :=
  opts.foldl
    (fun acc o =>
      let r := constructClientTimeout acc.2 o
      (acc.1 ++ [r.1], r.2))
    ([], 15000)

/-! ## Request dispatcher (`Client.request`, client.ts:85-146) -/

/-- Events emitted by the dispatcher, with their payloads
(client.ts:90, 110, 114; payload shapes from `RequestEvents` in
`src/types.ts`). -/
inductive RequestEvent where
  | request (request : RequestOptions) : RequestEvent
  | response (response : FapiResponse) : RequestEvent
  | ratelimit (request : RequestOptions) (response : FapiResponse)
      (ratelimitReset : Int) : RequestEvent
  deriving DecidableEq, Repr

/-- Failures a dispatch can surface (`src/errors.ts`, plus an exception
thrown by an event listener propagating out of a synchronous `emit`).
`ratelimitError` carries the `RatelimitError` fields: message
(`STATUS_CODES[429]`), status code (hard-wired 429) and `ratelimitReset`.
`fapiError` carries the `FapiError` fields: message and status code.
The diagnostic `request` reference on both errors is omitted. -/
inductive RequestError where
  | ratelimitError (message : String) (statusCode : Nat) (ratelimitReset : Int) :
      RequestError
  | fapiError (message : String) (statusCode : Nat) : RequestError
  | listenerError (message : String) : RequestError
  deriving DecidableEq, Repr

/-- The value a successful dispatch resolves with: the body text, a parsed
JSON document, the raw response object (default branch of the
`returnType` switch), JavaScript `undefined`, or any of those wrapped
together with the response headers (`returnHeaders` flag). -/
inductive RetValue where
  | undef : RetValue
  | str (s : String) : RetValue
  | json (j : JsonValue) : RetValue
  | resp (r : FapiResponse) : RetValue
  | withHeaders (v : RetValue) (hs : Headers) : RetValue
  deriving DecidableEq, Repr

/-- A registered observer callback: `none` models normal completion,
`some msg` models the callback throwing an exception with message `msg`. -/
abbrev Listener := RequestEvent → Option String

/-- Node `EventEmitter.emit`: run the listeners synchronously in
registration order; the first exception propagates to the caller
(listeners after the throwing one are not invoked). -/
def emitAll (ls : List Listener) (e : RequestEvent) : Option String :=
  ls.foldl
    (fun acc l =>
      match acc with
      | some m => some m
      | none => l e)
    none

/-- One field of the rate-limit state update (client.ts:97-103):
`if (headers[headerKey]) this.ratelimitState[headerKey] = headers[headerKey]`
— a truthiness test, so an absent header or a present header with empty
value leaves the field untouched. -/
def updateField (old : Option String) (hv : Option String) : Option String :=
  match hv with
  | some v => if v ≠ "" then some v else old
  | none => old

/-- The rate-limit state update loop over the three recognized headers
(client.ts:94-103). -/
def updateRatelimitState (st : RatelimitState) (hs : Headers) : RatelimitState :=
  { limit := updateField st.limit (headerGet hs RATELIMIT_LIMIT)
    remaining := updateField st.remaining (headerGet hs RATELIMIT_REMAINING)
    reset := updateField st.reset (headerGet hs RATELIMIT_RESET) }

/-- `options.contentType || 'application/json'` (client.ts:87): JavaScript
`||` falls through on a falsy (absent or empty) declared content type. -/
def contentTypeValue (ct : Option String) : String :=
  match ct with
  | some c => if c ≠ "" then c else "application/json"
  | none => "application/json"

/-- Content-type defaulting (client.ts:86-88): only when the method is not
GET **and the descriptor carries a headers object** is the content-type
header written into that object; the presence of a body is not consulted,
and a descriptor without a headers object is left unchanged. -/
def applyContentType (options : RequestOptions) : RequestOptions :=
  match options.headers with
  | some hs =>
      if options.method ≠ HttpMethods.GET then
        { options with
            headers := some (setHeader hs CONTENT_TYPE
              (contentTypeValue options.contentType)) }
      else options
  | none => options

/-- The `returnType` switch (client.ts:121-139). In the JSON case the
source reads:
```
let json;
try { json = await res.json(); } catch { returnValue = await res.body(); }
returnValue = json;
```
so when the parse throws, the fallback body assigned in the catch block is
immediately overwritten by the still-undefined `json` variable and the
dispatch resolves with `undefined`. -/
def decodeReturn (returnType : Option ReturnMethods) (res : FapiResponse) :
    RetValue :=
  match returnType with
  | some ReturnMethods.BODY => RetValue.str res.body
  | some ReturnMethods.JSON =>
      match res.json with
      | some j => RetValue.json j
      | none => RetValue.undef
  | none => RetValue.resp res

/-- `parseInt(res.headers['x-rate-limit-reset'])` with the `isNaN` guard
defaulting to 0 (client.ts:106-109). -/
def ratelimitResetOf (res : FapiResponse) : Int :=
  match jsParseIntOpt (headerGet res.headers RATELIMIT_RESET) with
  | some n => n
  | none => 0

/-- `Client.request` (client.ts:85-146), as a function of the registered
listeners, the rate-limit state before the call, the request descriptor,
and the response the transport produced for it. Results: the sequence of
events emitted, the rate-limit state after the call, and the outcome
(decoded value or typed error). A listener exception propagates out of the
synchronous `emit` at the point of that emit, aborting the rest of the
routine. -/
def requestRun (ls : List Listener) (st : RatelimitState)
    (options0 : RequestOptions) (res : FapiResponse) :
    List RequestEvent × RatelimitState × Except RequestError RetValue :=
  let options := applyContentType options0
  match emitAll ls (RequestEvent.request options) with
  | some m =>
      ([RequestEvent.request options], st,
        Except.error (RequestError.listenerError m))
  | none =>
    let st1 := updateRatelimitState st res.headers
    if res.statusCode = 429 then
      let reset := ratelimitResetOf res
      match emitAll ls (RequestEvent.ratelimit options res reset) with
      | some m =>
          ([RequestEvent.request options,
            RequestEvent.ratelimit options res reset], st1,
            Except.error (RequestError.listenerError m))
      | none =>
          ([RequestEvent.request options,
            RequestEvent.ratelimit options res reset], st1,
            Except.error
              (RequestError.ratelimitError "Too Many Requests" 429 reset))
    else
      match emitAll ls (RequestEvent.response res) with
      | some m =>
          ([RequestEvent.request options, RequestEvent.response res], st1,
            Except.error (RequestError.listenerError m))
      | none =>
          if res.statusCode ≠ 200 then
            ([RequestEvent.request options, RequestEvent.response res], st1,
              Except.error (RequestError.fapiError res.body res.statusCode))
          else
            let rv0 := decodeReturn options.returnType res
            let rv :=
              if options.returnHeaders then RetValue.withHeaders rv0 res.headers
              else rv0
            ([RequestEvent.request options, RequestEvent.response res], st1,
              Except.ok rv)

/-- A sequence of dispatches on one client: threads the rate-limit state
through successive calls (each given as a descriptor together with the
response the transport produced for it). -/
def runCalls (ls : List Listener) (st : RatelimitState)
    (calls : List (RequestOptions × FapiResponse)) : RatelimitState :=
  calls.foldl (fun s c => (requestRun ls s c.1 c.2).2.1) st

/-! ## Helper lemmas -/

/-- A broadcast over listeners that all complete normally raises nothing. -/
lemma emitAll_eq_none (ls : List Listener) (e : RequestEvent) :
    (∀ l ∈ ls, ∀ e', l e' = none) → emitAll ls e = none := by
  induction ls with
  | nil => intro _; rfl
  | cons l t ih =>
      intro h
      have h1 : l e = none := h l (by simp) e
      have h2 : emitAll (l :: t) e = emitAll t e := by
        simp [emitAll, h1]
      rw [h2]
      exact ih (fun l' hm e' => h l' (by simp [hm]) e')

/-- Content-type defaulting touches only the headers field of the request
descriptor. -/
lemma applyContentType_fields (o : RequestOptions) :
    (applyContentType o).returnType = o.returnType ∧
      (applyContentType o).returnHeaders = o.returnHeaders ∧
      (applyContentType o).method = o.method ∧
      (applyContentType o).body = o.body := by
  unfold applyContentType
  cases ho : o.headers with
  | none => exact ⟨rfl, rfl, rfl, rfl⟩
  | some hs => by_cases hm : o.method ≠ HttpMethods.GET <;> simp [hm]

/-- Dispatch shape on a 429 response, when no listener throws. -/
lemma requestRun_shape_429 (ls : List Listener) (st : RatelimitState)
    (options : RequestOptions) (res : FapiResponse)
    (he : ∀ e, emitAll ls e = none) (h429 : res.statusCode = 429) :
    requestRun ls st options res =
      ([RequestEvent.request (applyContentType options),
        RequestEvent.ratelimit (applyContentType options) res (ratelimitResetOf res)],
       updateRatelimitState st res.headers,
       Except.error (RequestError.ratelimitError "Too Many Requests" 429
         (ratelimitResetOf res))) := by
  simp only [requestRun, he, h429]
  simp

/-- Dispatch shape on a non-429, non-200 response, when no listener
throws. -/
lemma requestRun_shape_fail (ls : List Listener) (st : RatelimitState)
    (options : RequestOptions) (res : FapiResponse)
    (he : ∀ e, emitAll ls e = none) (h429 : res.statusCode ≠ 429)
    (h200 : res.statusCode ≠ 200) :
    requestRun ls st options res =
      ([RequestEvent.request (applyContentType options),
        RequestEvent.response res],
       updateRatelimitState st res.headers,
       Except.error (RequestError.fapiError res.body res.statusCode)) := by
  simp only [requestRun, he, h429, h200]
  simp [h429, h200]

/-- Dispatch shape on a 200 response, when no listener throws. -/
lemma requestRun_shape_ok (ls : List Listener) (st : RatelimitState)
    (options : RequestOptions) (res : FapiResponse)
    (he : ∀ e, emitAll ls e = none) (h200 : res.statusCode = 200) :
    requestRun ls st options res =
      ([RequestEvent.request (applyContentType options),
        RequestEvent.response res],
       updateRatelimitState st res.headers,
       Except.ok (if options.returnHeaders
         then RetValue.withHeaders (decodeReturn options.returnType res) res.headers
         else decodeReturn options.returnType res)) := by
  have hf := applyContentType_fields options
  simp only [requestRun, he, h200]
  simp [hf.1, hf.2.1]

/-- With no listener able to throw, the whole dispatch (events, state,
outcome) is the one computed with zero listeners. -/
lemma requestRun_nothrow (ls : List Listener) (st : RatelimitState)
    (options : RequestOptions) (res : FapiResponse)
    (hls : ∀ l ∈ ls, ∀ e, l e = none) :
    requestRun ls st options res = requestRun [] st options res := by
  have he : ∀ e, emitAll ls e = none := fun e => emitAll_eq_none ls e hls
  have he0 : ∀ e : RequestEvent, emitAll [] e = none := fun _ => rfl
  by_cases h429 : res.statusCode = 429
  · rw [requestRun_shape_429 ls st options res he h429,
      requestRun_shape_429 [] st options res he0 h429]
  · by_cases h200 : res.statusCode = 200
    · rw [requestRun_shape_ok ls st options res he h200,
        requestRun_shape_ok [] st options res he0 h200]
    · rw [requestRun_shape_fail ls st options res he h429 h200,
        requestRun_shape_fail [] st options res he0 h429 h200]

/-- The rate-limit state after a dispatch whose listeners do not throw is
always the header-driven update of the state before it, for every
response outcome. -/
lemma requestRun_state (ls : List Listener) (st : RatelimitState)
    (options : RequestOptions) (res : FapiResponse)
    (hls : ∀ l ∈ ls, ∀ e, l e = none) :
    (requestRun ls st options res).2.1 = updateRatelimitState st res.headers := by
  have he : ∀ e, emitAll ls e = none := fun e => emitAll_eq_none ls e hls
  by_cases h429 : res.statusCode = 429
  · rw [requestRun_shape_429 ls st options res he h429]
  · by_cases h200 : res.statusCode = 200
    · rw [requestRun_shape_ok ls st options res he h200]
    · rw [requestRun_shape_fail ls st options res he h429 h200]

/-- A decimal digit is not `parseInt` whitespace. -/
lemma digit_not_jsWhitespace (c : Char) (h : c.isDigit = true) :
    isJsWhitespace c = false := by
  unfold isJsWhitespace
  by_contra hw
  simp only [Bool.not_eq_false, Bool.or_eq_true, beq_iff_eq] at hw
  rcases hw with ((((rfl | rfl) | rfl) | rfl) | rfl) | rfl <;> simp [Char.isDigit] at h

/-- Taking while a predicate holds of every element returns the list. -/
lemma takeWhile_of_forall (p : Char → Bool) (l : List Char) :
    (∀ c ∈ l, p c = true) → l.takeWhile p = l := by
  induction l with
  | nil => intro _; rfl
  | cons a t ih =>
      intro h
      rw [List.takeWhile_cons, h a (by simp)]
      simp [ih (fun c hc => h c (by simp [hc]))]

/-- `parseInt` on a non-empty all-decimal-digit string is its decimal
value. -/
lemma jsParseIntStr_all_digits (s : String) (hne : s.toList ≠ [])
    (hd : ∀ c ∈ s.toList, c.isDigit = true) :
    jsParseIntStr s = some (decDigits s.toList : Int) := by
  cases hs : s.toList with
  | nil => exact absurd hs hne
  | cons c rest =>
      have hdc : c.isDigit = true := hd c (by rw [hs]; simp)
      have hdrest : ∀ x ∈ rest, x.isDigit = true :=
        fun x hx => hd x (by rw [hs]; simp [hx])
      have hdrop : (c :: rest).dropWhile isJsWhitespace = c :: rest := by
        rw [List.dropWhile_cons, digit_not_jsWhitespace c hdc]
        simp
      have hdash : (c == '-') = false := by
        by_contra hb
        simp only [Bool.not_eq_false, beq_iff_eq] at hb
        subst hb; simp [Char.isDigit] at hdc
      have hplus : (c == '+') = false := by
        by_contra hb
        simp only [Bool.not_eq_false, beq_iff_eq] at hb
        subst hb; simp [Char.isDigit] at hdc
      have hnothex :
          (match c :: rest with
            | c0 :: c1 :: _ => c0 == '0' && (c1 == 'x' || c1 == 'X')
            | _ => false) = false := by
        cases rest with
        | nil => rfl
        | cons c1 t =>
            have hd1 : c1.isDigit = true := hdrest c1 (by simp)
            have hx : (c1 == 'x') = false := by
              by_contra hb
              simp only [Bool.not_eq_false, beq_iff_eq] at hb
              subst hb; simp [Char.isDigit] at hd1
            have hX : (c1 == 'X') = false := by
              by_contra hb
              simp only [Bool.not_eq_false, beq_iff_eq] at hb
              subst hb; simp [Char.isDigit] at hd1
            simp [hx, hX]
      have htake : (c :: rest).takeWhile Char.isDigit = c :: rest :=
        takeWhile_of_forall Char.isDigit (c :: rest)
          (fun x hx => by
            rcases List.mem_cons.mp hx with rfl | hx
            · exact hdc
            · exact hdrest x hx)
      unfold jsParseIntStr
      rw [hs, hdrop]
      simp only [hdash, hplus, if_false]
      unfold jsParseIntCore
      simp only [hnothex]
      simp [htake]

/-- Overwriting an existing binding puts `(k, v)` where the first `k`
binding was. -/
lemma find?_map_overwrite (t : Headers) (k v : String)
    (ht : t.any (fun q => q.1 == k) = true) :
    (t.map (fun q => if q.1 == k then (k, v) else q)).find?
      (fun p => p.1 == k) = some (k, v) := by
  induction t with
  | nil => simp at ht
  | cons p t ih =>
      by_cases hp : p.1 = k
      · have hpp : (if (p.1 == k) = true then (k, v) else p) = (k, v) := by
          simp [hp]
        simp only [List.map_cons, hpp]
        exact List.find?_cons_of_pos _ (by simp)
      · have hp' : (p.1 == k) = false := by simp [hp]
        simp only [List.any_cons, hp', Bool.false_or] at ht
        have hpp : (if (p.1 == k) = true then (k, v) else p) = p := by
          simp [hp']
        simp only [List.map_cons, hpp]
        rw [List.find?_cons_of_neg _ (by simp [hp])]
        exact ih ht

/-- Appending a fresh binding makes it the first `k` binding. -/
lemma find?_append_new (t : Headers) (k v : String)
    (ht : t.any (fun q => q.1 == k) = false) :
    (t ++ [(k, v)]).find? (fun p => p.1 == k) = some (k, v) := by
  induction t with
  | nil => simp [List.find?]
  | cons p t ih =>
      have ht2 : (p.1 == k) = false ∧ t.any (fun q => q.1 == k) = false := by
        simpa [List.any_cons] using ht
      rw [List.cons_append, List.find?_cons_of_neg _ (by simp [ht2.1])]
      exact ih ht2.2

/-- Writing a header then reading it back yields the written value. -/
lemma headerGet_setHeader (hs : Headers) (k v : String) :
    headerGet (setHeader hs k v) k = some v := by
  unfold setHeader headerGet
  by_cases h : hs.any (fun p => p.1 == k) = true
  · rw [if_pos h, find?_map_overwrite hs k v h]
    rfl
  · rw [if_neg h, find?_append_new hs k v (Bool.eq_false_iff.mpr h)]
    rfl

/-- A non-empty header value overwrites its rate-limit field. -/
lemma updateField_some (old : Option String) (v : String) (hv : v ≠ "") :
    updateField old (some v) = some v := by
  simp [updateField, hv]

/-- An absent or empty header value leaves its rate-limit field alone. -/
lemma updateField_keep (old : Option String) (hv : Option String)
    (h : hv = none ∨ hv = some "") : updateField old hv = old := by
  rcases h with rfl | rfl <;> simp [updateField]

/-- A run of calls none of which carries a usable remaining header leaves
the remaining field alone. -/
lemma runCalls_remaining_keep (ls : List Listener)
    (hls : ∀ l ∈ ls, ∀ e, l e = none) (st : RatelimitState)
    (calls : List (RequestOptions × FapiResponse)) :
    (∀ c ∈ calls, headerGet c.2.headers RATELIMIT_REMAINING = none ∨
      headerGet c.2.headers RATELIMIT_REMAINING = some "") →
    (runCalls ls st calls).remaining = st.remaining := by
  induction calls generalizing st with
  | nil => intro _; rfl
  | cons c t ih =>
      intro h
      have hstep : runCalls ls st (c :: t) =
          runCalls ls ((requestRun ls st c.1 c.2).2.1) t := rfl
      rw [hstep, ih ((requestRun ls st c.1 c.2).2.1)
        (fun q hq => h q (by simp [hq]))]
      rw [requestRun_state ls st c.1 c.2 hls]
      exact updateField_keep st.remaining _ (h c (by simp))

/-- After a call whose response carries a non-empty remaining header,
followed by calls that do not, the remaining field holds that header's
value. -/
lemma runCalls_remaining_last (ls : List Listener)
    (hls : ∀ l ∈ ls, ∀ e, l e = none) (st : RatelimitState)
    (pre : List (RequestOptions × FapiResponse))
    (c : RequestOptions × FapiResponse)
    (post : List (RequestOptions × FapiResponse)) (v : String)
    (hc : headerGet c.2.headers RATELIMIT_REMAINING = some v) (hv : v ≠ "")
    (hpost : ∀ q ∈ post, headerGet q.2.headers RATELIMIT_REMAINING = none ∨
      headerGet q.2.headers RATELIMIT_REMAINING = some "") :
    (runCalls ls st (pre ++ c :: post)).remaining = some v := by
  have happ : runCalls ls st (pre ++ c :: post) =
      runCalls ls (runCalls ls st pre) (c :: post) := by
    simp [runCalls, List.foldl_append]
  rw [happ]
  have hstep : runCalls ls (runCalls ls st pre) (c :: post) =
      runCalls ls ((requestRun ls (runCalls ls st pre) c.1 c.2).2.1) post := rfl
  rw [hstep, runCalls_remaining_keep ls hls _ post hpost,
    requestRun_state ls _ c.1 c.2 hls]
  simp [updateRatelimitState, hc, updateField_some _ v hv]

/-! ## Claim theorems -/

/-- C1: the spec claims that on a 200 response with parsed-JSON preference
and a body that is not valid JSON, the call succeeds and returns the raw
body. In the code the fallback assigned in the catch block is overwritten
by the unconditional `returnValue = json` (client.ts:127-136), so the call
succeeds but resolves with `undefined` instead of the raw body. This
theorem evaluates the dispatcher at such an input, exhibiting the
divergence. -/
theorem c1_json_fallback_overwritten :
    (requestRun [] initialRatelimitState
      { method := HttpMethods.GET, returnType := some ReturnMethods.JSON }
      { statusCode := 200, body := "not json", json := none }).2.2 =
      Except.ok RetValue.undef
    ∧ RetValue.undef ≠ RetValue.str "not json" :=
  ⟨rfl, by simp⟩

/-- C2: every 429 response fails with the Rate-Limited error kind
(`RatelimitError`, message `Too Many Requests`, status 429), never the
generic Request-Failed kind — the 429 check precedes the generic non-200
check — and the error's `ratelimitReset` equals the integer parsed from
the `x-rate-limit-reset` header (in particular its decimal value on an
all-digit header), or 0 when that header is missing or non-numeric. -/
theorem c2_rate_limited_classification (ls : List Listener)
    (st : RatelimitState) (options : RequestOptions) (res : FapiResponse)
    (hls : ∀ l ∈ ls, ∀ e, l e = none) (h429 : res.statusCode = 429) :
    (requestRun ls st options res).2.2 =
      Except.error (RequestError.ratelimitError "Too Many Requests" 429
        (ratelimitResetOf res))
    ∧ (∀ m c, (requestRun ls st options res).2.2 ≠
        Except.error (RequestError.fapiError m c))
    ∧ (headerGet res.headers RATELIMIT_RESET = none → ratelimitResetOf res = 0)
    ∧ (∀ s, headerGet res.headers RATELIMIT_RESET = some s →
        jsParseIntStr s = none → ratelimitResetOf res = 0)
    ∧ (∀ s n, headerGet res.headers RATELIMIT_RESET = some s →
        jsParseIntStr s = some n → ratelimitResetOf res = n)
    ∧ (∀ s, headerGet res.headers RATELIMIT_RESET = some s →
        s.toList ≠ [] → (∀ c ∈ s.toList, c.isDigit = true) →
        ratelimitResetOf res = (decDigits s.toList : Int)) := by
  have he : ∀ e, emitAll ls e = none := fun e => emitAll_eq_none ls e hls
  have hshape := requestRun_shape_429 ls st options res he h429
  refine ⟨by rw [hshape], ?_, ?_, ?_, ?_, ?_⟩
  · intro m c
    rw [hshape]
    simp
  · intro h
    simp [ratelimitResetOf, jsParseIntOpt, h]
  · intro s hs hn
    simp [ratelimitResetOf, jsParseIntOpt, hs, hn]
  · intro s n hs hn
    simp [ratelimitResetOf, jsParseIntOpt, hs, hn]
  · intro s hs hne hd
    simp [ratelimitResetOf, jsParseIntOpt, hs,
      jsParseIntStr_all_digits s hne hd]

/-- A plain GET descriptor used by concrete witnesses. -/
def getOptions : RequestOptions := { method := HttpMethods.GET }

/-- Concrete 429 response carrying `x-rate-limit-reset: 17`, used by the
C2 witness. -/
def res429w : FapiResponse :=
  { statusCode := 429, headers := [("x-rate-limit-reset", "17")] }

/-- Witness for C2 at a concrete 429 response carrying
`x-rate-limit-reset: 17`. -/
theorem c2_rate_limited_witness :
    (requestRun [] initialRatelimitState getOptions res429w).2.2 =
      Except.error (RequestError.ratelimitError "Too Many Requests" 429
        (ratelimitResetOf res429w))
    ∧ ratelimitResetOf res429w = 17 :=
  ⟨(c2_rate_limited_classification [] initialRatelimitState getOptions res429w
      (by simp) rfl).1,
    by rfl⟩

/-- C3: every response with a status other than 200 and 429 fails with the
generic Request-Failed error kind (`FapiError`), whose message is the
response body verbatim and whose `statusCode` is the response's status
code — never the Rate-Limited kind. -/
theorem c3_request_failed_classification (ls : List Listener)
    (st : RatelimitState) (options : RequestOptions) (res : FapiResponse)
    (hls : ∀ l ∈ ls, ∀ e, l e = none) (h200 : res.statusCode ≠ 200)
    (h429 : res.statusCode ≠ 429) :
    (requestRun ls st options res).2.2 =
      Except.error (RequestError.fapiError res.body res.statusCode)
    ∧ (∀ m c r, (requestRun ls st options res).2.2 ≠
        Except.error (RequestError.ratelimitError m c r)) := by
  have he : ∀ e, emitAll ls e = none := fun e => emitAll_eq_none ls e hls
  have hshape := requestRun_shape_fail ls st options res he h429 h200
  refine ⟨by rw [hshape], ?_⟩
  intro m c r
  rw [hshape]
  simp

/-- Witness for C3 at a concrete 500 response with body
`internal error`. -/
theorem c3_request_failed_witness :
    (requestRun [] initialRatelimitState getOptions
      { statusCode := 500, body := "internal error" }).2.2 =
      Except.error (RequestError.fapiError "internal error" 500) :=
  (c3_request_failed_classification [] initialRatelimitState getOptions
    { statusCode := 500, body := "internal error" }
    (by simp) (by simp) (by simp)).1

/-- A 200 response whose remaining header is present with an empty value,
used by the C4 counterexample. -/
def emptyRemainingRes : FapiResponse :=
  { statusCode := 200, headers := [("x-rate-limit-remaining", "")] }

/-- C4 counterexample: the claim says each rate-limit field is overwritten
exactly when the corresponding header is present. A present header with an
empty value refutes it: the truthy test `if (headers[headerKey])`
(client.ts:98) skips the empty string, so the field keeps its previous
value instead of being overwritten. -/
theorem c4_counterexample :
    headerGet emptyRemainingRes.headers RATELIMIT_REMAINING = some ""
    ∧ ((requestRun [] { remaining := some "5" } getOptions
        emptyRemainingRes).2.1).remaining = some "5"
    ∧ (some "5" : Option String) ≠ some "" :=
  ⟨rfl, rfl, by simp⟩

/-- C4 (amended): each rate-limit state field is overwritten with the
corresponding header's value exactly when that header is present with a
non-empty value, and is left unchanged (including staying unset) when the
header is absent or empty; this holds for every response outcome (the
update precedes error classification); and after a sequence of calls the
remaining field equals the value of the most recent non-empty remaining
header. -/
theorem c4_state_update (ls : List Listener) (st : RatelimitState)
    (options : RequestOptions) (res : FapiResponse)
    (hls : ∀ l ∈ ls, ∀ e, l e = none) :
    (∀ v, headerGet res.headers RATELIMIT_LIMIT = some v → v ≠ "" →
      ((requestRun ls st options res).2.1).limit = some v)
    ∧ ((headerGet res.headers RATELIMIT_LIMIT = none ∨
        headerGet res.headers RATELIMIT_LIMIT = some "") →
      ((requestRun ls st options res).2.1).limit = st.limit)
    ∧ (∀ v, headerGet res.headers RATELIMIT_REMAINING = some v → v ≠ "" →
      ((requestRun ls st options res).2.1).remaining = some v)
    ∧ ((headerGet res.headers RATELIMIT_REMAINING = none ∨
        headerGet res.headers RATELIMIT_REMAINING = some "") →
      ((requestRun ls st options res).2.1).remaining = st.remaining)
    ∧ (∀ v, headerGet res.headers RATELIMIT_RESET = some v → v ≠ "" →
      ((requestRun ls st options res).2.1).reset = some v)
    ∧ ((headerGet res.headers RATELIMIT_RESET = none ∨
        headerGet res.headers RATELIMIT_RESET = some "") →
      ((requestRun ls st options res).2.1).reset = st.reset)
    ∧ (∀ calls, (∀ c ∈ calls,
        headerGet c.2.headers RATELIMIT_REMAINING = none ∨
        headerGet c.2.headers RATELIMIT_REMAINING = some "") →
      (runCalls ls st calls).remaining = st.remaining)
    ∧ (∀ pre c post v,
        headerGet c.2.headers RATELIMIT_REMAINING = some v → v ≠ "" →
        (∀ q ∈ post, headerGet q.2.headers RATELIMIT_REMAINING = none ∨
          headerGet q.2.headers RATELIMIT_REMAINING = some "") →
        (runCalls ls st (pre ++ c :: post)).remaining = some v) := by
  have hst := requestRun_state ls st options res hls
  rw [hst]
  refine ⟨?_, ?_, ?_, ?_, ?_, ?_, ?_, ?_⟩
  · intro v hv hne
    simp only [updateRatelimitState, hv]
    exact updateField_some st.limit v hne
  · intro h
    simp only [updateRatelimitState]
    exact updateField_keep st.limit _ h
  · intro v hv hne
    simp only [updateRatelimitState, hv]
    exact updateField_some st.remaining v hne
  · intro h
    simp only [updateRatelimitState]
    exact updateField_keep st.remaining _ h
  · intro v hv hne
    simp only [updateRatelimitState, hv]
    exact updateField_some st.reset v hne
  · intro h
    simp only [updateRatelimitState]
    exact updateField_keep st.reset _ h
  · intro calls h
    exact runCalls_remaining_keep ls hls st calls h
  · intro pre c post v hc hv hpost
    exact runCalls_remaining_last ls hls st pre c post v hc hv hpost

/-- A bare 200 response with no headers. -/
def plain200Res : FapiResponse := { statusCode := 200 }

/-- A 200 response carrying `x-rate-limit-remaining: 3`. -/
def remaining3Res : FapiResponse :=
  { statusCode := 200, headers := [("x-rate-limit-remaining", "3")] }

/-- Witness for C4 (amended): the spec's three-call scenario — two
responses without the remaining header, then one carrying
`x-rate-limit-remaining: 3` — leaves the field at the call-3 value. -/
theorem c4_state_update_witness :
    (runCalls [] initialRatelimitState
      [(getOptions, plain200Res), (getOptions, plain200Res),
       (getOptions, remaining3Res)]).remaining = some "3" :=
  (c4_state_update [] initialRatelimitState getOptions plain200Res
      (by simp)).2.2.2.2.2.2.2
    [(getOptions, plain200Res), (getOptions, plain200Res)]
    (getOptions, remaining3Res) [] "3" rfl (by simp) (by simp)

/-- C5 counterexample: the claim keys the content-type defaulting on a
body being present, but the code keys it on a headers object being present
(`options.method !== GET && options.headers`, client.ts:86). A non-GET
descriptor with a body but no headers object is dispatched completely
unchanged: no content-type header is set anywhere. -/
theorem c5_counterexample :
    ({ method := HttpMethods.POST, body := some "payload" } :
        RequestOptions).method ≠ HttpMethods.GET
    ∧ ({ method := HttpMethods.POST, body := some "payload" } :
        RequestOptions).body.isSome = true
    ∧ applyContentType { method := HttpMethods.POST, body := some "payload" } =
        { method := HttpMethods.POST, body := some "payload" }
    ∧ (applyContentType
        { method := HttpMethods.POST, body := some "payload" }).headers =
        none :=
  ⟨by simp, rfl, rfl, rfl⟩

/-- C5 (amended): for every request descriptor whose method is not GET and
which carries a headers object, the outgoing content-type header is set
to the descriptor's declared content type when one is declared and
non-empty, and to `application/json` otherwise; the presence of a body is
irrelevant. -/
theorem c5_content_type_defaulting (options : RequestOptions) (hs : Headers)
    (hm : options.method ≠ HttpMethods.GET) (hh : options.headers = some hs) :
    (applyContentType options).headers =
      some (setHeader hs CONTENT_TYPE (contentTypeValue options.contentType))
    ∧ headerGet ((applyContentType options).headers.getD []) CONTENT_TYPE =
      some (contentTypeValue options.contentType)
    ∧ (∀ c, options.contentType = some c → c ≠ "" →
        contentTypeValue options.contentType = c)
    ∧ (options.contentType = none →
        contentTypeValue options.contentType = "application/json") := by
  have h1 : (applyContentType options).headers =
      some (setHeader hs CONTENT_TYPE (contentTypeValue options.contentType)) := by
    simp [applyContentType, hh, hm]
  refine ⟨h1, ?_, ?_, ?_⟩
  · rw [h1]
    exact headerGet_setHeader hs CONTENT_TYPE (contentTypeValue options.contentType)
  · intro c hc hne
    simp [contentTypeValue, hc, hne]
  · intro hc
    simp [contentTypeValue, hc]

/-- Witness for C5 (amended): a POST descriptor with an empty headers
object and no declared content type gets `application/json`. -/
theorem c5_content_type_witness :
    (applyContentType
      { method := HttpMethods.POST, headers := some [] }).headers =
      some [("content-type", "application/json")] := by
  have h := c5_content_type_defaulting
    { method := HttpMethods.POST, headers := some [] } [] (by simp) rfl
  rw [h.1]
  rfl

/-- C6: every dispatched call (with observers that do not throw) emits the
`request` notification first — before the transport send — and after the
response arrives emits exactly one of `response` or `ratelimit`:
`ratelimit` precisely when the status is 429, and `response` for every
non-429 response, including those subsequently converted to Request-Failed
errors. -/
theorem c6_lifecycle_events (ls : List Listener) (st : RatelimitState)
    (options : RequestOptions) (res : FapiResponse)
    (hls : ∀ l ∈ ls, ∀ e, l e = none) :
    (requestRun ls st options res).1.head? =
      some (RequestEvent.request (applyContentType options))
    ∧ (res.statusCode = 429 → (requestRun ls st options res).1 =
        [RequestEvent.request (applyContentType options),
         RequestEvent.ratelimit (applyContentType options) res
           (ratelimitResetOf res)])
    ∧ (res.statusCode ≠ 429 → (requestRun ls st options res).1 =
        [RequestEvent.request (applyContentType options),
         RequestEvent.response res]) := by
  have he : ∀ e, emitAll ls e = none := fun e => emitAll_eq_none ls e hls
  by_cases h429 : res.statusCode = 429
  · rw [requestRun_shape_429 ls st options res he h429]
    exact ⟨rfl, fun _ => rfl, fun h => absurd h429 h⟩
  · by_cases h200 : res.statusCode = 200
    · rw [requestRun_shape_ok ls st options res he h200]
      exact ⟨rfl, fun h => absurd h h429, fun _ => rfl⟩
    · rw [requestRun_shape_fail ls st options res he h429 h200]
      exact ⟨rfl, fun h => absurd h h429, fun _ => rfl⟩

/-- Witness for C6: a concrete 500 response still gets a `response` event
after the `request` event. -/
theorem c6_lifecycle_events_witness :
    (requestRun [] initialRatelimitState getOptions
      { statusCode := 500, body := "oops" }).1 =
      [RequestEvent.request (applyContentType getOptions),
       RequestEvent.response { statusCode := 500, body := "oops" }] :=
  (c6_lifecycle_events [] initialRatelimitState getOptions
    { statusCode := 500, body := "oops" } (by simp)).2.2 (by simp)

/-- C7: the spec claims a client constructed without a timeout option
always has the 15000 ms default, regardless of earlier constructions. In
the code `const settings: RequestSettings = defaultSettings`
(client.ts:51) aliases the module-level `defaultSettings` object, so a
construction passing a timeout mutates the shared default: in a fresh
process the default is indeed 15000, but after `new Client({timeout: 5000})`
a subsequent `new Client({})` gets 5000. This theorem evaluates both
scenarios. -/
theorem c7_default_timeout_mutated :
    (constructClients [none]).1 = [15000]
    ∧ (constructClients [some 5000, none]).1 = [5000, 5000]
    ∧ (constructClients [some 5000, none]).1.getLast? ≠ some 15000 :=
  ⟨rfl, rfl, by decide⟩

/-- C8: a bearer token without the scheme marker gets `Bearer ` prepended
in the Authorization header value, and a token already starting with the
marker is passed through unchanged — both at the spec's concrete examples
and for every non-empty token. -/
theorem c8_auth_normalisation (t : String) :
    mkAuth (some "abc123") = "Bearer abc123"
    ∧ mkAuth (some "Bearer abc123") = "Bearer abc123"
    ∧ (t ≠ "" → jsStartsWith t "Bearer" = false →
        mkAuth (some t) = "Bearer " ++ t)
    ∧ (t ≠ "" → jsStartsWith t "Bearer" = true → mkAuth (some t) = t) := by
  refine ⟨rfl, rfl, ?_, ?_⟩
  · intro ht hsw
    simp [mkAuth, ht, hsw]
  · intro ht hsw
    simp [mkAuth, ht, hsw]

/-- Witness for C8 at the concrete token `xyz`. -/
theorem c8_auth_normalisation_witness : mkAuth (some "xyz") = "Bearer xyz" :=
  (c8_auth_normalisation "xyz").2.2.1 (by decide) rfl

/-- C9 counterexample: the claim says the decoded result is unchanged even
when a registered observer callback throws. Node's `EventEmitter.emit`
runs listeners synchronously and an exception propagates out of `emit`
(client.ts:90), so a throwing `request` observer aborts the dispatch: with
it the call rejects with the observer's exception, without it the same
call resolves with the body. -/
theorem c9_counterexample :
    (requestRun [fun _ => some "observer exception"] initialRatelimitState
      { method := HttpMethods.GET, returnType := some ReturnMethods.BODY }
      { statusCode := 200, body := "hello" }).2.2 =
      Except.error (RequestError.listenerError "observer exception")
    ∧ (requestRun [] initialRatelimitState
      { method := HttpMethods.GET, returnType := some ReturnMethods.BODY }
      { statusCode := 200, body := "hello" }).2.2 =
      Except.ok (RetValue.str "hello")
    ∧ (Except.error (RequestError.listenerError "observer exception") :
        Except RequestError RetValue) ≠ Except.ok (RetValue.str "hello") :=
  ⟨rfl, rfl, by simp⟩

/-- C9 (amended): provided no registered observer callback throws when
notified, the entire dispatch — events, rate-limit state and decoded
outcome — is identical to the dispatch with zero observers; a throwing
observer instead aborts the dispatch with the observer's exception. -/
theorem c9_observer_independence (ls : List Listener) (st : RatelimitState)
    (options : RequestOptions) (res : FapiResponse)
    (hls : ∀ l ∈ ls, ∀ e, l e = none) :
    requestRun ls st options res = requestRun [] st options res :=
  requestRun_nothrow ls st options res hls

/-- Witness for C9 (amended) with one non-throwing observer. -/
theorem c9_observer_independence_witness :
    requestRun [fun _ => none] initialRatelimitState getOptions plain200Res =
      requestRun [] initialRatelimitState getOptions plain200Res :=
  c9_observer_independence [fun _ => none] initialRatelimitState getOptions
    plain200Res (by intro l hl e; rw [List.mem_singleton] at hl; rw [hl])

/-- C10 counterexample: the claim says every token not beginning with
`Bearer` gets `Bearer ` prepended. The empty-string token refutes it:
`options.auth` is falsy for `""` (client.ts:41-47), so the stored
Authorization value is `""`, not `Bearer `. -/
theorem c10_counterexample :
    jsStartsWith "" "Bearer" = false
    ∧ mkAuth (some "") = ""
    ∧ mkAuth (some "") ≠ "Bearer " ++ "" := by
  refine ⟨rfl, rfl, ?_⟩
  intro h
  rw [show mkAuth (some "") = "" from rfl] at h
  simp at h

/-- C10 (amended): the bearer-marker recognition tests only whether the
token's first six characters are exactly `Bearer` (case-sensitive, no
following space required): every non-empty token passing that test is kept
unchanged (e.g. `Bearerabc123`), every other non-empty token — including
lowercase `bearer abc123` — gets `Bearer ` prepended, and a client
constructed with no auth option or with an empty-string auth stores the
empty string as the Authorization header value. -/
theorem c10_auth_edge_cases (t : String) :
    (t ≠ "" → jsStartsWith t "Bearer" = true → mkAuth (some t) = t)
    ∧ (t ≠ "" → jsStartsWith t "Bearer" = false →
        mkAuth (some t) = "Bearer " ++ t)
    ∧ mkAuth none = ""
    ∧ mkAuth (some "") = ""
    ∧ mkAuth (some "Bearerabc123") = "Bearerabc123"
    ∧ mkAuth (some "bearer abc123") = "Bearer bearer abc123" := by
  refine ⟨?_, ?_, rfl, rfl, rfl, rfl⟩
  · intro ht hsw
    simp [mkAuth, ht, hsw]
  · intro ht hsw
    simp [mkAuth, ht, hsw]

/-- Witness for C10 (amended) at the concrete token `Bearerxyz`. -/
theorem c10_auth_edge_cases_witness : mkAuth (some "Bearerxyz") = "Bearerxyz" :=
  (c10_auth_edge_cases "Bearerxyz").1 (by decide) rfl

end FClient
